import Mathlib

/-!
Verification of the artifact-synthesis pipeline of the database-agent CLI
(schema plan normalizer, schema validator, index regeneration, migration
step, UI integration planner, and the endpoint generation loop).

The definitions below are shallow embeddings of the TypeScript sources in
`src/scripts/agent` and `src/scripts/agent.ts`; JavaScript string and list
operations (`includes`, `some`, `filter`, first-occurrence `replace`,
falsy defaults) are modelled explicitly.
-/

/-! ## JavaScript string primitives -/

/-- `sub` is a prefix of `l` (character lists). -/
def listStartsWith : List Char → List Char → Bool
  | [], _ => true
  | _ :: _, [] => false
  | a :: as, b :: bs => a == b && listStartsWith as bs

/-- `sub` occurs contiguously inside `l` (character lists). -/
def listHasSub (sub : List Char) : List Char → Bool
  | [] => listStartsWith sub []
  | l@(_ :: rest) => listStartsWith sub l || listHasSub sub rest

/-- JavaScript `s.includes(sub)`. -/
def jsIncludes (s sub : String) : Bool :=
  listHasSub sub.toList s.toList

/-- JavaScript `s.endsWith(suffix)`. -/
def jsEndsWith (s suffix : String) : Bool :=
  listStartsWith suffix.toList.reverse s.toList.reverse

/-- JavaScript `s.toLowerCase()` (ASCII). -/
def jsToLower (s : String) : String :=
  String.mk (s.toList.map Char.toLower)

/-- Replace the first occurrence of `pat` by `rep` (JavaScript
`s.replace(pat, rep)` with a string pattern). -/
def listReplaceFirst (pat rep : List Char) : List Char → List Char
  | [] => []
  | c :: rest =>
    if listStartsWith pat (c :: rest) then rep ++ (c :: rest).drop pat.length
    else c :: listReplaceFirst pat rep rest

/-- JavaScript `s.replace(pat, rep)` with a string pattern: first
occurrence only. -/
def jsReplaceFirst (s pat rep : String) : String :=
  String.mk (listReplaceFirst pat.toList rep.toList s.toList)

/-- JavaScript `s.replace(/_/g, "-")`: global hyphenation of a table name. -/
def hyphenate (s : String) : String :=
  String.mk (s.toList.map fun c => if c == '_' then '-' else c)

/-- Split a character list on a single separator character; the result
always has one more part than there are separators. -/
def splitChar (sep : Char) : List Char → List (List Char)
  | [] => [[]]
  | c :: rest =>
    if c == sep then [] :: splitChar sep rest
    else
      match splitChar sep rest with
      | [] => [[c]]
      | w :: ws => (c :: w) :: ws

/-- JavaScript `s.split(sep)` for a one-character separator (the only
kind the agent uses: `"_"`, `"-"`, `" "`, `"\n"`). -/
def jsSplit (s : String) (sep : Char) : List String :=
  (splitChar sep s.toList).map String.mk

/-- JavaScript whitespace for `trim`. -/
def isWsChar (c : Char) : Bool :=
  c == ' ' || c == '\t' || c == '\r' || c == '\n'

/-- JavaScript `s.trim()`. -/
def jsTrim (s : String) : String :=
  String.mk (((s.toList.dropWhile isWsChar).reverse.dropWhile isWsChar).reverse)

/-- JavaScript `str || dflt` on an optional string: `undefined` and the
empty string are falsy. -/
def jsOrStr (v : Option String) (dflt : String) : String :=
  match v with
  | none => dflt
  | some s => if s == "" then dflt else s

/-- `toPascalCase` from `src/scripts/agent/utils.ts`: split on `_`,
capitalize the first character of each word, join. -/
def toPascalCase (s : String) : String :=
  String.join ((jsSplit s '_').map fun w =>
    match w.toList with
    | [] => ""
    | c :: cs => String.mk (c.toUpper :: cs))

/-! ## Data model (`src/scripts/agent/types.ts`) -/

/-- `SchemaField` from `types.ts`: `constraints` is optional in the
source, hence `Option`. -/
structure SchemaField where
  name : String
  type : String
  constraints : Option (List String)
deriving DecidableEq, Repr

/-- `SchemaDefinition` from `types.ts` (the optional `relationships`
field is never consulted by the pipeline and is omitted). -/
structure SchemaDefinition where
  tableName : String
  fileName : String
  fields : List SchemaField
deriving DecidableEq, Repr

/-- `ValidationResult` from `types.ts`. -/
structure ValidationResult where
  isValid : Bool
  errors : List String
  warnings : List String
deriving DecidableEq, Repr

/-! ## Schema Validator (`src/scripts/agent/modules/schema-validator.ts`) -/

/-- The regular expression `^[a-z][a-z0-9_]*$`. -/
def matchesIdent (s : String) : Bool :=
  match s.toList with
  | [] => false
  | c :: cs =>
    ('a' ≤ c && c ≤ 'z') &&
      cs.all fun d => ('a' ≤ d && d ≤ 'z') || ('0' ≤ d && d ≤ '9') || d == '_'

/-- `validTypes` from `validateSchema`. -/
def validTypes : List String :=
  ["serial", "text", "timestamp", "integer", "boolean", "uuid"]

/-- The check shared by the validator and the plan normalizer: a field
named `id` of type `serial` whose constraints include `primaryKey()`. -/
def hasValidId (fields : List SchemaField) : Bool :=
  fields.any fun f =>
    f.name == "id" && f.type == "serial" &&
      (f.constraints.getD []).contains "primaryKey()"

/-- The message pushed by `validateSchema` for a malformed field name
(`Field ${i + 1}: ...`). -/
def badNameMsg (k : Nat) : String :=
  s!"Field {k}: Name must be snake_case and start with a letter"

/-- The per-field loop of `validateSchema` (`schemaDef.fields.forEach`),
carrying the 0-based index `i`. -/
def fieldErrorsFrom : Nat → List SchemaField → List String
  | _, [] => []
  | i, f :: fs =>
    (if f.name == "" || !matchesIdent f.name then [badNameMsg (i + 1)] else []) ++
    (if !(validTypes.contains f.type) then
        [s!"Field '{f.name}': Invalid type '{f.type}'."] else []) ++
    (match f.constraints with
     | none => []
     | some cs =>
       (if f.type != "serial" && cs.contains "primaryKey()" then
           [s!"Field '{f.name}': Only 'serial' fields should have primaryKey()"]
        else []) ++
       (if f.type != "timestamp" && cs.any (fun c => jsIncludes c "defaultNow") then
           [s!"Field '{f.name}': defaultNow() only for timestamp"]
        else [])) ++
    fieldErrorsFrom (i + 1) fs

/-- `SchemaValidator.validateSchema`: the plan-level rule check. -/
def validateSchema (schemaDef : SchemaDefinition) : ValidationResult :=
  let errs :=
    (if schemaDef.tableName == "" || !matchesIdent schemaDef.tableName then
        ["Table name must be snake_case and start with a letter"] else []) ++
    (if !(jsEndsWith schemaDef.fileName ".ts") then
        ["File name must end with .ts"] else []) ++
    (if !(hasValidId schemaDef.fields) then
        ["Schema must have an 'id' field with type 'serial' and primaryKey() constraint"]
     else []) ++
    fieldErrorsFrom 0 schemaDef.fields
  { isValid := errs.length == 0, errors := errs, warnings := [] }

/-- The per-definition loop of `validateGeneratedSchemas`; the filesystem
is abstracted as a map from schema file name to file content (`none` for
a missing file). -/
def genSchemaErrors (fsRead : String → Option String) :
    List SchemaDefinition → List String
  | [] => []
  | d :: ds =>
    (match fsRead d.fileName with
     | none => [s!"Schema file not found: {d.fileName}"]
     | some content =>
       if !(jsIncludes content "pgTable") then
         [s!"{d.fileName}: Missing pgTable definition"]
       else []) ++
    genSchemaErrors fsRead ds

/-- `SchemaValidator.validateGeneratedSchemas`: the artifact-level check. -/
def validateGeneratedSchemas (fsRead : String → Option String)
    (schemaDefinitions : List SchemaDefinition) : ValidationResult :=
  let errs := genSchemaErrors fsRead schemaDefinitions
  { isValid := errs.length == 0, errors := errs, warnings := [] }

/-! ## Plan Normalizer (`src/scripts/agent/modules/schema-generator.ts`,
`parseQueryForSchemas`, shared verbatim with
`DatabaseAgent.parseQueryForSchemas` in `databaseAgent.ts`) -/

/-- A raw candidate table shape from the text-generation collaborator:
every property may be absent. -/
structure RawSchema where
  tableName : Option String
  fileName : Option String
  fields : Option (List SchemaField)
deriving DecidableEq, Repr

/-- The canonical id field prepended by the normalizer. -/
def canonicalIdField : SchemaField :=
  { name := "id", type := "serial", constraints := some ["primaryKey()"] }

/-- The canonical `created_at` field appended by the normalizer. -/
def canonicalCreatedAtField : SchemaField :=
  { name := "created_at", type := "timestamp",
    constraints := some ["defaultNow()", "notNull()"] }

/-- The canonical `updated_at` field appended by the normalizer. -/
def canonicalUpdatedAtField : SchemaField :=
  { name := "updated_at", type := "timestamp",
    constraints := some ["defaultNow()", "notNull()"] }

/-- First normalization step: `if (!hasValidId) processed.fields.unshift(...)`. -/
def ensureIdField (fields : List SchemaField) : List SchemaField :=
  if hasValidId fields then fields else canonicalIdField :: fields

/-- Second normalization step: append a canonical `created_at` when no
field of that *name* exists (the existing field's type is not checked). -/
def ensureCreatedAt (fields : List SchemaField) : List SchemaField :=
  if fields.any (fun f => f.name == "created_at") then fields
  else fields ++ [canonicalCreatedAtField]

/-- Third normalization step: append a canonical `updated_at` when no
field of that name exists. -/
def ensureUpdatedAt (fields : List SchemaField) : List SchemaField :=
  if fields.any (fun f => f.name == "updated_at") then fields
  else fields ++ [canonicalUpdatedAtField]

/-- The body of `aiSchemas.map((schema) => ...)`: lower-case the table
name with falsy defaults, then enforce the baseline shape through the
three steps above. -/
def processRawSchema (raw : RawSchema) : SchemaDefinition :=
  { tableName := jsOrStr (raw.tableName.map jsToLower) "unknown_table"
    fileName :=
      jsOrStr raw.fileName
        (jsOrStr (raw.tableName.map jsToLower) "unknown" ++ ".ts")
    fields := ensureUpdatedAt (ensureCreatedAt (ensureIdField (raw.fields.getD []))) }

/-- The regex match `text.match(/\[[\s\S]*\])/`: the substring from the
first `[` to the last `]` after it, when such a pair exists. -/
def extractJsonArray (s : String) : Option String :=
  let rest := s.toList.dropWhile (fun c => c != '[')
  match rest with
  | [] => none
  | _ :: _ =>
    let rev := rest.reverse
    let core := (rev.dropWhile (fun c => c != ']')).reverse
    if core.length ≥ 2 then some (String.mk core) else none

/-- `SchemaGenerator.parseQueryForSchemas`: the collaborator's reply is
`text`; `JSON.parse` is abstracted as `parse` (`none` models a throw or
a non-array value, which the surrounding `catch` turns into `[]`). -/
def parseQueryForSchemas (parse : String → Option (List RawSchema))
    (text : String) : List SchemaDefinition :=
  match extractJsonArray text with
  | none => []
  | some jsonText =>
    match parse jsonText with
    | none => []
    | some aiSchemas => aiSchemas.map processRawSchema

/-- The demo-mode fallback table built by
`DatabaseAgent.parseQueryForSchemas` (`databaseAgent.ts`) when no model
is configured. -/
def recentlyPlayedFallback : SchemaDefinition :=
  { tableName := "recently_played"
    fileName := "recently-played.ts"
    fields :=
      [ { name := "id", type := "serial", constraints := some ["primaryKey()"] },
        { name := "user_id", type := "text", constraints := some ["notNull()"] },
        { name := "song_id", type := "text", constraints := some ["notNull()"] },
        { name := "song_title", type := "text", constraints := some ["notNull()"] },
        { name := "artist", type := "text", constraints := some ["notNull()"] },
        { name := "album", type := "text", constraints := none },
        { name := "duration_seconds", type := "integer", constraints := none },
        { name := "played_at", type := "timestamp",
          constraints := some ["defaultNow()", "notNull()"] },
        { name := "created_at", type := "timestamp",
          constraints := some ["defaultNow()", "notNull()"] },
        { name := "updated_at", type := "timestamp",
          constraints := some ["defaultNow()", "notNull()"] } ] }

/-- `DatabaseAgent.parseQueryForSchemas` when `this.model` is null: the
deterministic fallback path. -/
def parseQueryForSchemasNoModel (query : String) : List SchemaDefinition :=
  if jsIncludes (jsToLower query) "recently played" &&
      jsIncludes (jsToLower query) "songs" then
    [recentlyPlayedFallback]
  else []

/-! ## Schema index regeneration (`DatabaseAgent.updateSchemaIndex` and
`generateSchemaIndexContent` in `databaseAgent.ts`; the same rescan logic
appears in `DatabaseWorkflow.updateSchemaIndex`) -/

/-- `generateSchemaIndexContent`: one `export * from "./<stem>";` line per
file, stems obtained by removing the first `.ts` occurrence, prefixed by
the auto-generation comment. -/
def generateSchemaIndexContent (schemaFiles : List String) : String :=
  "// Auto-generated schema index\n" ++
    String.intercalate "\n"
      (schemaFiles.map fun f =>
        "export * from \"./" ++ jsReplaceFirst f ".ts" "" ++ "\";")

/-- The schema directory as seen by `updateSchemaIndex`: the file names
in listing order, and the current content of `index.ts` when present. -/
structure FsDir where
  names : List String
  index : Option String
deriving DecidableEq, Repr

/-- `[...new Set(l)]`: JavaScript insertion-order deduplication. -/
def jsSetDedup (l : List String) : List String :=
  l.foldl (fun acc x => if acc.contains x then acc else acc ++ [x]) []

/-- The directory listing filter used throughout the agent:
`.ts` files other than `index.ts`. -/
def listSchemaFiles (names : List String) : List String :=
  names.filter fun f => jsEndsWith f ".ts" && f != "index.ts"

/-- `DatabaseAgent.updateSchemaIndex`: re-list the directory from disk,
union with the defined file names, rewrite `index.ts`. -/
def updateSchemaIndex (schemaDefinitions : List SchemaDefinition)
    (d : FsDir) : FsDir :=
  let existing := listSchemaFiles d.names
  let all := jsSetDedup (existing ++ schemaDefinitions.map (·.fileName))
  { names := if d.names.contains "index.ts" then d.names else d.names ++ ["index.ts"]
    index := some (generateSchemaIndexContent all) }

/-! ## Migration step (`DatabaseAgent.runMigrations` in
`databaseAgent.ts`, and the legacy `runMigrations` in
`src/scripts/agent.ts` with the `drizzle-kit push` fallback).
The two `execSync` calls are abstracted as success booleans; the result
is the list of subcommands invoked and the warnings printed by the
`catch` handlers (neither version re-throws). -/

/-- `DatabaseAgent.runMigrations` (`databaseAgent.ts`): generate, then
migrate; any failure is caught and logged. No further command runs. -/
def runMigrations (genOk migrateOk : Bool) : List String × List String :=
  if genOk then
    if migrateOk then
      (["npx drizzle-kit generate", "npx drizzle-kit migrate"], [])
    else
      (["npx drizzle-kit generate", "npx drizzle-kit migrate"], ["Migration failed"])
  else
    (["npx drizzle-kit generate"], ["Migration failed"])

/-- The legacy `runMigrations` (`src/scripts/agent.ts`): on failure of the
generate+migrate pair, the catch block additionally tries
`npx drizzle-kit push`; a push failure is also only logged. -/
def runMigrationsLegacy (genOk migrateOk pushOk : Bool) :
    List String × List String :=
  if genOk then
    if migrateOk then
      (["npx drizzle-kit generate", "npx drizzle-kit migrate"], [])
    else
      (["npx drizzle-kit generate", "npx drizzle-kit migrate", "npx drizzle-kit push"],
       if pushOk then ["Migration failed"]
       else ["Migration failed", "Schema push also failed"])
  else
    (["npx drizzle-kit generate", "npx drizzle-kit push"],
     if pushOk then ["Migration failed"]
     else ["Migration failed", "Schema push also failed"])

/-! ## Workflow Orchestrator (`DatabaseAgent.processQuery` in
`databaseAgent.ts`, lines 222-311) -/

/-- One unit of work of `processQuery`, in execution order. -/
inductive Stage where
  | planning
  | adviseUnsupported
  | validatePlan
  | writeSchema (tableName : String)
  | updateIndex
  | validateArtifacts
  | migrate
  | apiRoute (tableName : String)
  | seed (tableName : String)
  | frontend
deriving DecidableEq, Repr

/-- The environment of one `processQuery` run: the plan produced by the
normalizer, the filesystem as seen by the artifact-level validation, and
the outcomes of the two migration subcommands. -/
structure PipelineEnv where
  parsedSchemas : List SchemaDefinition
  artifactFs : String → Option String
  migrationGenOk : Bool
  migrationMigrateOk : Bool

/-- `DatabaseAgent.processQuery` as a trace of stages plus the warnings
from the migration step. Planning emptiness and the two validation gates
halt the run; the migration step never does (its failures are caught
inside `runMigrations`). -/
def processQueryRun (env : PipelineEnv) : List Stage × List String :=
  let defs := env.parsedSchemas
  if defs.isEmpty then ([.planning, .adviseUnsupported], [])
  else if !(defs.all fun d => (validateSchema d).isValid) then
    ([.planning, .validatePlan], [])
  else
    let pre := [Stage.planning, Stage.validatePlan] ++
      defs.map (fun d => Stage.writeSchema d.tableName) ++
      [Stage.updateIndex, Stage.validateArtifacts]
    if !(validateGeneratedSchemas env.artifactFs defs).isValid then (pre, [])
    else
      let migration := runMigrations env.migrationGenOk env.migrationMigrateOk
      (pre ++ [Stage.migrate] ++
        defs.map (fun d => Stage.apiRoute d.tableName) ++
        defs.map (fun d => Stage.seed d.tableName) ++
        [Stage.frontend],
       migration.2)

/-! ## UI Integration Planner
(`UIIntegrator.analyzeQueryForUIIntegration` in
`src/scripts/agent/modules/ui-integrator.ts`; the identical function also
appears in `frontend-integrator.ts`) -/

/-- One entry of a produced UI integration plan. -/
structure UISection where
  sectionName : String
  targetArray : String
  schema : SchemaDefinition
  hookName : String
deriving DecidableEq, Repr

/-- The analysis record built by `analyzeQueryForUIIntegration`. -/
structure UIAnalysis where
  shouldUpdateMainContent : Bool
  shouldUpdateSidebar : Bool
  sections : List UISection
deriving DecidableEq, Repr

/-- One row of the fixed `uiMappings` table. -/
structure UIMapping where
  keywords : List String
  sectionName : String
  targetArray : String
  component : String
deriving DecidableEq, Repr

/-- The fixed keyword-set table from `analyzeQueryForUIIntegration`. -/
def uiMappings : List UIMapping :=
  [ { keywords := ["recently played", "recent", "history", "last played"]
      sectionName := "Recently Played", targetArray := "recentlyPlayed"
      component := "main" },
    { keywords := ["made for you", "curated", "recommendations", "suggested"]
      sectionName := "Made For You", targetArray := "madeForYou"
      component := "main" },
    { keywords := ["popular albums", "popular", "trending albums", "top albums"]
      sectionName := "Popular Albums", targetArray := "popularAlbums"
      component := "main" },
    { keywords := ["playlist", "playlists", "user playlist", "my playlist"]
      sectionName := "Playlists", targetArray := "recentlyPlayed"
      component := "sidebar" },
    { keywords := ["liked songs", "favorites", "saved songs", "hearted"]
      sectionName := "Liked Songs", targetArray := "recentlyPlayed"
      component := "sidebar" } ]

/-- Tokens derived from a table name: split on `_` and on `-`. -/
def schemaKeywordsOf (tableName : String) : List String :=
  jsSplit tableName '_' ++ jsSplit tableName '-'

/-- The `uiMappings.find(...)` predicate: a keyword occurs in the query,
or every word of some keyword matches a table-name token by substring
containment in either direction. -/
def mappingMatches (lowerQuery : String) (schemaKeywords : List String)
    (m : UIMapping) : Bool :=
  m.keywords.any (fun keyword => jsIncludes lowerQuery keyword) ||
  m.keywords.any (fun keyword =>
    (jsSplit keyword ' ').all fun word =>
      schemaKeywords.any fun schemaWord =>
        jsIncludes schemaWord word || jsIncludes word schemaWord)

/-- `uiMappings.find((mapping) => ...)` for one schema. -/
def findMapping (lowerQuery : String) (schema : SchemaDefinition) :
    Option UIMapping :=
  uiMappings.find?
    (mappingMatches lowerQuery (schemaKeywordsOf (jsToLower schema.tableName)))

/-- The section pushed for a schema matched by mapping `m`. -/
def mappedSection (m : UIMapping) (schema : SchemaDefinition) : UISection :=
  { sectionName := m.sectionName, targetArray := m.targetArray
    schema := schema, hookName := "use" ++ toPascalCase schema.tableName }

/-- The first loop of `analyzeQueryForUIIntegration`: keyword-set
matching per schema, accumulating sections and destination flags. -/
def keywordPhase (lowerQuery : String) :
    List SchemaDefinition → UIAnalysis → UIAnalysis
  | [], a => a
  | schema :: rest, a =>
    match findMapping lowerQuery schema with
    | some m =>
      keywordPhase lowerQuery rest
        { shouldUpdateMainContent :=
            if m.component == "main" then true else a.shouldUpdateMainContent
          shouldUpdateSidebar :=
            if m.component == "main" then a.shouldUpdateSidebar
            else if m.component == "sidebar" then true else a.shouldUpdateSidebar
          sections := a.sections ++ [mappedSection m schema] }
    | none => keywordPhase lowerQuery rest a

/-- The structural heuristic of the fallback loop: a title-like field
name is present. -/
def hasTitleField (schema : SchemaDefinition) : Bool :=
  schema.fields.any fun f =>
    ["title", "name", "song_title", "track_title"].contains (jsToLower f.name)

/-- The structural heuristic of the fallback loop: an artist/creator-like
field name is present. -/
def hasArtistField (schema : SchemaDefinition) : Bool :=
  schema.fields.any fun f =>
    ["artist", "artist_name", "creator"].contains (jsToLower f.name)

/-- The generic collection section pushed by the fallback loop. -/
def collectionSection (schema : SchemaDefinition) : UISection :=
  { sectionName := toPascalCase schema.tableName ++ " Collection"
    targetArray := "recentlyPlayed", schema := schema
    hookName := "use" ++ toPascalCase schema.tableName }

/-- The warning logged for a table the fallback loop skips. -/
def skippedMsg (schema : SchemaDefinition) : String :=
  s!"Schema {schema.tableName} doesn't match known UI patterns"

/-- The fallback loop of `analyzeQueryForUIIntegration`; the second
component collects the skip warnings written to the console. -/
def fallbackPhase :
    List SchemaDefinition → UIAnalysis → List String → UIAnalysis × List String
  | [], a, skipped => (a, skipped)
  | schema :: rest, a, skipped =>
    if hasTitleField schema && hasArtistField schema then
      fallbackPhase rest
        { a with sections := a.sections ++ [collectionSection schema]
                 shouldUpdateMainContent := true }
        skipped
    else
      fallbackPhase rest a (skipped ++ [skippedMsg schema])

/-- `UIIntegrator.analyzeQueryForUIIntegration`: keyword phase, then the
structural fallback when no section was produced. The second component
is the list of skip warnings (empty when the keyword phase matched). -/
def analyzeQueryForUIIntegration (query : String)
    (schemaDefinitions : List SchemaDefinition) : UIAnalysis × List String :=
  let lowerQuery := jsToLower query
  let analysis :=
    keywordPhase lowerQuery schemaDefinitions
      { shouldUpdateMainContent := false, shouldUpdateSidebar := false
        sections := [] }
  if analysis.sections.isEmpty then fallbackPhase schemaDefinitions analysis []
  else (analysis, [])

/-! ## Structural Code Validator and Retry-and-Repair Engine.
No implementation of these two components exists under the repository's
source tree (the endpoint generators write template or collaborator
output directly); they are modelled from the specification. -/

/-- A generated-code line is a handler declaration when it declares a
top-level exported handler and opens its brace. -/
def isHandlerDecl (line : String) : Bool :=
  jsIncludes line "export async function" && jsIncludes line "\x7b"

/-- A parameter-extraction (URL/query/body parsing) statement. -/
def isParsingCall (line : String) : Bool :=
  jsIncludes line "request.json(" || jsIncludes line "searchParams" ||
    jsIncludes line "new URL("

/-- Number of occurrences of a character in a string. -/
def countChar (c : Char) (s : String) : Nat :=
  (s.toList.filter (fun d => d == c)).length

/-- Modelled from the spec: check 4 of the Structural Code Validator --
scan the lines keeping a depth counter that is incremented on each
handler declaration's opening brace and decremented on its closing
brace, flagging any parsing call seen while the depth is zero. -/
def depthFlags : List String → Int → List String
  | [], _ => []
  | line :: rest, depth =>
    let opens := isHandlerDecl line
    let closes := jsTrim line == "\x7d"
    (if depth == 0 && !opens && isParsingCall line then
        [s!"Parsing statement outside handler scope: {jsTrim line}"]
     else []) ++
    depthFlags rest (depth + (if opens then 1 else 0) - (if closes then 1 else 0))

/-- The four expected operation handlers and no others. -/
def expectedHandlers : List String := ["GET", "POST", "PUT", "DELETE"]

/-- The error recorded for an absent top-level handler export. -/
def missingHandlerMsg (handler : String) : String :=
  s!"Missing {handler} handler export"

/-- A top-level export declaration for the named handler is present in
the generated text. -/
def hasHandlerExport (code handler : String) : Bool :=
  jsIncludes code ("export async function " ++ handler)

/-- Modelled from the spec: check 3 of the Structural Code Validator --
all four expected operation handlers (read-collection, create, update,
delete) are declared as top-level exports. -/
def handlerErrors (code : String) : List String :=
  expectedHandlers.filterMap fun h =>
    if !(hasHandlerExport code h) then some (missingHandlerMsg h) else none

/-- Modelled from the spec: check 2 of the Structural Code Validator --
a connection/initialization block exists and is properly closed
(balanced braces within that block specifically). The block runs from
the `new Pool(` line up to the first `drizzle(` initialization line. -/
def connectionErrors (lines : List String) : List String :=
  let rest := lines.dropWhile fun l => !(jsIncludes l "new Pool(")
  match rest with
  | [] => ["Missing database connection block"]
  | _ :: _ =>
    let block := rest.takeWhile fun l => !(jsIncludes l "drizzle(")
    let joined := String.intercalate "\n" block
    if countChar '{' joined == countChar '}' joined then []
    else ["Database connection block is not properly closed"]

/-- Modelled from the spec: check 1 of the Structural Code Validator --
required import/reference lines for the persistence layer and the target
table are present. -/
def importErrors (tableName : String) (code : String) : List String :=
  (if !(jsIncludes code "from \"@/db/schema\"") then
      ["Missing persistence layer import from @/db/schema"]
   else []) ++
  (if !(jsIncludes code tableName) then
      [s!"Missing reference to table {tableName}"]
   else [])

/-- Modelled from the spec: the Structural Code Validator (spec section
4.3). Assesses freely generated endpoint source text line by line:
required imports, a properly closed connection block, the four top-level
handler exports, no parameter-extraction statements at brace depth zero,
and a globally balanced brace count. All advisory strings are aggregated
into one `ValidationResult`. Absent from the source tree; modelled from
the specification's wording. -/
def validateEndpointCode (tableName : String) (code : String) :
    ValidationResult :=
  let lines := jsSplit code '\n'
  let errs :=
    importErrors tableName code ++
    connectionErrors lines ++
    handlerErrors code ++
    depthFlags lines 0 ++
    (if countChar '{' code == countChar '}' code then []
     else ["Unbalanced braces in generated code"])
  { isValid := errs.length == 0, errors := errs, warnings := [] }

/-- The deterministic post-processing pass applied on acceptance
(normalize the known-equivalent import path, as in
`ApiGenerator.postProcessGeneratedCode`). -/
def postProcessGeneratedCode (code : String) : String :=
  jsReplaceFirst code "drizzle-orm/pg-core" "drizzle-orm/node-postgres"

/-- The on-disk path of a table's endpoint file (`route.ts` under the
hyphenated table directory). -/
def apiRoutePath (tableName : String) : String :=
  "src/app/api/" ++ hyphenate tableName ++ "/route.ts"

/-- Modelled from the spec: the Retry-and-Repair Engine's bounded loop
(spec section 4.4). `gen n` is the collaborator's reply to the prompt of
attempt `n` (the augmented repair prompt for `n > 1`); `remaining`
attempts are left. A validated draft is accepted with its attempt
number; the third invalid draft is rejected with a GenerationFailure. -/
def attemptFrom (tableName : String) (gen : Nat → String) :
    Nat → Nat → Except String (Nat × String)
  | _, 0 => .error "GenerationFailure"
  | attempt, remaining + 1 =>
    let rawText := gen attempt
    if (validateEndpointCode tableName rawText).isValid then
      .ok (attempt, postProcessGeneratedCode rawText)
    else
      attemptFrom tableName gen (attempt + 1) remaining

/-- Modelled from the spec: endpoint generation for one table under the
Retry-and-Repair Engine, together with the file writes it performs — the
final text is persisted only on acceptance; a rejected run writes
nothing. -/
def generateEndpointWithRetry (tableName : String) (gen : Nat → String) :
    Except String (Nat × String) × List (String × String) :=
  match attemptFrom tableName gen 1 3 with
  | .ok (attemptNumber, finalText) =>
    (.ok (attemptNumber, finalText), [(apiRoutePath tableName, finalText)])
  | .error e => (.error e, [])

/-! ## Shared lemmas -/

/-- `errors.length === 0` is the emptiness test. -/
theorem length_beq_zero_iff (l : List String) :
    ((l.length == 0) = true) ↔ l = [] := by
  cases l <;> simp

/-- A non-empty error list fails the `length === 0` test. -/
theorem length_beq_zero_false {l : List String} (h : l ≠ []) :
    (l.length == 0) = false := by
  cases l with
  | nil => exact absurd rfl h
  | cons a as => simp

/-- A malformed field name at 0-based index `j` contributes its indexed
message to the per-field error loop started at index `i`. -/
theorem badName_mem_fieldErrors (fields : List SchemaField) :
    ∀ (i j : Nat) (f : SchemaField), fields.get? j = some f →
      (f.name == "" || !matchesIdent f.name) = true →
      badNameMsg (i + j + 1) ∈ fieldErrorsFrom i fields := by
  induction fields with
  | nil => intro i j f hget _; simp at hget
  | cons g gs ih =>
    intro i j f hget hbad
    cases j with
    | zero =>
      rw [List.get?_cons_zero, Option.some.injEq] at hget
      subst hget
      simp [fieldErrorsFrom, hbad]
    | succ j' =>
      rw [List.get?_cons_succ] at hget
      have hrec := ih (i + 1) j' f hget hbad
      have harith : i + 1 + j' + 1 = i + (j' + 1) + 1 := by omega
      rw [harith] at hrec
      simp only [fieldErrorsFrom, List.mem_append]
      tauto

/-! ## C10: validator results are well-formed -/

/-- C10. For every input, both Schema Validator entry points
(`validateSchema` and `validateGeneratedSchemas`) return a
`ValidationResult` whose warnings list is empty and whose `isValid` flag
is true exactly when the errors list is empty. -/
theorem validator_results_wellformed :
    (∀ d : SchemaDefinition,
      (validateSchema d).warnings = [] ∧
      ((validateSchema d).isValid = true ↔ (validateSchema d).errors = [])) ∧
    (∀ (fsRead : String → Option String) (defs : List SchemaDefinition),
      (validateGeneratedSchemas fsRead defs).warnings = [] ∧
      ((validateGeneratedSchemas fsRead defs).isValid = true ↔
        (validateGeneratedSchemas fsRead defs).errors = [])) := by
  constructor
  · intro d
    exact ⟨rfl, length_beq_zero_iff _⟩
  · intro fsRead defs
    exact ⟨rfl, length_beq_zero_iff _⟩

/-! ## C7: the plan-level check rejects malformed field names -/

/-- C7. For every `SchemaDefinition` containing a field whose name is
empty or does not match `^[a-z][a-z0-9_]*$`, `validateSchema` returns an
invalid result with an error entry for that field (indexed `Field i+1`). -/
theorem schema_validator_rejects_bad_field_name
    (d : SchemaDefinition) (j : Nat) (f : SchemaField)
    (hget : d.fields.get? j = some f)
    (hbad : (f.name == "" || !matchesIdent f.name) = true) :
    (validateSchema d).isValid = false ∧
      badNameMsg (j + 1) ∈ (validateSchema d).errors := by
  have hmem0 : badNameMsg (0 + j + 1) ∈ fieldErrorsFrom 0 d.fields :=
    badName_mem_fieldErrors d.fields 0 j f hget hbad
  rw [Nat.zero_add] at hmem0
  have hmem : badNameMsg (j + 1) ∈ (validateSchema d).errors := by
    simp only [validateSchema, List.mem_append]
    tauto
  refine ⟨?_, hmem⟩
  have hval : (validateSchema d).isValid = ((validateSchema d).errors.length == 0) := rfl
  rw [hval]
  exact length_beq_zero_false (List.ne_nil_of_mem hmem)

/-- C7 witness: a concrete schema with a malformed second field name. -/
theorem schema_validator_rejects_bad_field_name_witness :
    ({ tableName := "tracks", fileName := "tracks.ts",
       fields := [canonicalIdField,
                  { name := "Bad Name", type := "text", constraints := none }] } :
      SchemaDefinition).fields.get? 1 =
        some { name := "Bad Name", type := "text", constraints := none } ∧
    (validateSchema
      { tableName := "tracks", fileName := "tracks.ts",
        fields := [canonicalIdField,
                   { name := "Bad Name", type := "text", constraints := none }] }).isValid
      = false ∧
    badNameMsg 2 ∈
      (validateSchema
        { tableName := "tracks", fileName := "tracks.ts",
          fields := [canonicalIdField,
                     { name := "Bad Name", type := "text", constraints := none }] }).errors :=
  ⟨by decide,
   schema_validator_rejects_bad_field_name
     { tableName := "tracks", fileName := "tracks.ts",
       fields := [canonicalIdField,
                  { name := "Bad Name", type := "text", constraints := none }] }
     1 { name := "Bad Name", type := "text", constraints := none }
     (by decide) (by decide)⟩

/-! ## C1: the Plan Normalizer's baseline shape -/

/-- Appending fields preserves the presence of a conforming id field. -/
theorem hasValidId_append (l1 l2 : List SchemaField) (h : hasValidId l1 = true) :
    hasValidId (l1 ++ l2) = true := by
  simp only [hasValidId, List.any_append] at h ⊢
  rw [h, Bool.true_or]

/-- The first normalization step establishes a conforming id field. -/
theorem hasValidId_ensureIdField (l : List SchemaField) :
    hasValidId (ensureIdField l) = true := by
  unfold ensureIdField
  split
  next h => exact h
  next h =>
    simp only [hasValidId, List.any_cons]
    have hc : (canonicalIdField.name == "id" && canonicalIdField.type == "serial" &&
        (canonicalIdField.constraints.getD []).contains "primaryKey()") = true := by
      decide
    rw [hc, Bool.true_or]

/-- The second normalization step preserves a conforming id field. -/
theorem hasValidId_ensureCreatedAt (l : List SchemaField)
    (h : hasValidId l = true) : hasValidId (ensureCreatedAt l) = true := by
  unfold ensureCreatedAt
  split
  · exact h
  · exact hasValidId_append l _ h

/-- The third normalization step preserves a conforming id field. -/
theorem hasValidId_ensureUpdatedAt (l : List SchemaField)
    (h : hasValidId l = true) : hasValidId (ensureUpdatedAt l) = true := by
  unfold ensureUpdatedAt
  split
  · exact h
  · exact hasValidId_append l _ h

/-- The third normalization step preserves membership. -/
theorem mem_ensureUpdatedAt (x : SchemaField) (l : List SchemaField)
    (h : x ∈ l) : x ∈ ensureUpdatedAt l := by
  unfold ensureUpdatedAt
  split
  · exact h
  · exact List.mem_append_left _ h

/-- Prepending the canonical id field cannot introduce a `created_at`
name. -/
theorem noCreatedAt_ensureIdField (l : List SchemaField)
    (h : l.any (fun f => f.name == "created_at") = false) :
    (ensureIdField l).any (fun f => f.name == "created_at") = false := by
  unfold ensureIdField
  split
  next => exact h
  next =>
    simp only [List.any_cons, h, Bool.or_false]
    decide

/-- C1 counterexample: a raw candidate with two canonical id fields and a
text-typed `created_at` field. The normalizer keeps both ids (two fields
named `id` of kind `serial` with `primaryKey()`) and, seeing the name
`created_at`, never adds a timestamp-typed one. -/
def rawDupId : RawSchema :=
  { tableName := some "songs", fileName := none,
    fields := some [canonicalIdField, canonicalIdField,
      { name := "created_at", type := "text", constraints := none }] }

/-- C1 is false as stated: on `rawDupId` the produced definition has two
(not exactly one) conforming id fields, and no `created_at` field of kind
`timestamp` with `defaultNow()` and `notNull()`. -/
theorem plan_normalizer_invariant_cex :
    ¬ ((((processRawSchema rawDupId).fields.filter (fun f =>
          f.name == "id" && f.type == "serial" &&
            (f.constraints.getD []).contains "primaryKey()")).length = 1) ∧
       (((processRawSchema rawDupId).fields.any (fun f =>
          f.name == "created_at" && f.type == "timestamp" &&
          (f.constraints.getD []).contains "defaultNow()" &&
          (f.constraints.getD []).contains "notNull()")) = true)) := by
  decide

/-- C1 amended: *every* normalized definition has at least one conforming
id field (unconditionally), and when the raw candidate has no field
*named* `created_at`, the canonical timestamp `created_at` field (with
`defaultNow()` and `notNull()`) is appended. -/
theorem plan_normalizer_baseline_shape :
    (∀ raw : RawSchema, hasValidId (processRawSchema raw).fields = true) ∧
    (∀ raw : RawSchema,
      (raw.fields.getD []).any (fun f => f.name == "created_at") = false →
      canonicalCreatedAtField ∈ (processRawSchema raw).fields) := by
  constructor
  · intro raw
    have hfields : (processRawSchema raw).fields =
        ensureUpdatedAt (ensureCreatedAt (ensureIdField (raw.fields.getD []))) := rfl
    rw [hfields]
    exact hasValidId_ensureUpdatedAt _
      (hasValidId_ensureCreatedAt _ (hasValidId_ensureIdField _))
  · intro raw h
    have hfields : (processRawSchema raw).fields =
        ensureUpdatedAt (ensureCreatedAt (ensureIdField (raw.fields.getD []))) := rfl
    have h2 : (ensureIdField (raw.fields.getD [])).any
        (fun f => f.name == "created_at") = false := noCreatedAt_ensureIdField _ h
    have e2 : ensureCreatedAt (ensureIdField (raw.fields.getD [])) =
        ensureIdField (raw.fields.getD []) ++ [canonicalCreatedAtField] := by
      simp [ensureCreatedAt, h2]
    rw [hfields]
    refine mem_ensureUpdatedAt _ _ ?_
    rw [e2]
    exact List.mem_append_right _ (List.mem_singleton.mpr rfl)

/-- C1 witness: the id conjunct at the `rawDupId` counterexample input
(which *does* carry a `created_at`-named field), and the `created_at`
conjunct at a raw candidate with no fields at all. -/
theorem plan_normalizer_baseline_shape_witness :
    hasValidId (processRawSchema rawDupId).fields = true ∧
    ((({ tableName := some "songs", fileName := none, fields := none } :
        RawSchema).fields.getD []).any (fun f => f.name == "created_at") = false) ∧
    canonicalCreatedAtField ∈ (processRawSchema
      { tableName := some "songs", fileName := none, fields := none }).fields :=
  ⟨plan_normalizer_baseline_shape.1 rawDupId,
   by decide,
   plan_normalizer_baseline_shape.2
     { tableName := some "songs", fileName := none, fields := none } (by decide)⟩

/-! ## C3: the demo-mode fallback table -/

/-- C3 is false as stated: the fallback's field-name set is not
`{id, user_id, song_id, song_title, artist, album, duration, played_at,
created_at}` — the produced table contains `updated_at` (and
`duration_seconds` rather than `duration`). -/
theorem fallback_field_set_cex :
    ¬ (((parseQueryForSchemasNoModel
          "Can you store the recently played songs in a table").length = 1) ∧
       (∀ d ∈ parseQueryForSchemasNoModel
          "Can you store the recently played songs in a table",
         d.tableName = "recently_played" ∧
         (∀ x : String, x ∈ d.fields.map (fun f => f.name) ↔
            x ∈ ["id", "user_id", "song_id", "song_title", "artist", "album",
                 "duration", "played_at", "created_at"]))) := by
  intro hc
  have hd := hc.2 recentlyPlayedFallback (by decide)
  have h1 := (hd.2 "updated_at").mp (by decide)
  exact absurd h1 (by decide)

/-- C3 amended: on the query above the fallback path returns exactly the
`recently_played` table, whose field-name set is `{id, user_id, song_id,
song_title, artist, album, duration_seconds, played_at, created_at,
updated_at}` (order-insensitive). -/
theorem fallback_recently_played :
    parseQueryForSchemasNoModel
        "Can you store the recently played songs in a table" =
      [recentlyPlayedFallback] ∧
    (∀ x : String, x ∈ recentlyPlayedFallback.fields.map (fun f => f.name) ↔
      x ∈ ["id", "user_id", "song_id", "song_title", "artist", "album",
           "duration_seconds", "played_at", "created_at", "updated_at"]) := by
  refine ⟨by decide, fun x => ?_⟩
  have hnames : recentlyPlayedFallback.fields.map (fun f => f.name) =
      ["id", "user_id", "song_id", "song_title", "artist", "album",
       "duration_seconds", "played_at", "created_at", "updated_at"] := by decide
  rw [hnames]

/-! ## C6: idempotence of schema index regeneration -/

/-- `index.ts` itself never appears in the directory listing used to
rebuild the index. -/
theorem listSchemaFiles_index_invariant (names : List String) :
    listSchemaFiles (if names.contains "index.ts" then names
      else names ++ ["index.ts"]) = listSchemaFiles names := by
  split
  next => rfl
  next =>
    unfold listSchemaFiles
    rw [List.filter_append]
    have hidx : List.filter
        (fun f => jsEndsWith f ".ts" && f != "index.ts") ["index.ts"] = [] := by
      decide
    rw [hidx, List.append_nil]

/-- C6. Regenerating the schema aggregate index twice in a row over the
same directory contents and the same definitions writes byte-identical
index content both times: the only file the first run can add, `index.ts`,
is excluded from the rescan, so the second run recomputes the same
export list. -/
theorem schema_index_regeneration_idempotent
    (schemaDefinitions : List SchemaDefinition) (d : FsDir) :
    (updateSchemaIndex schemaDefinitions
      (updateSchemaIndex schemaDefinitions d)).index =
      (updateSchemaIndex schemaDefinitions d).index := by
  have hnames : (updateSchemaIndex schemaDefinitions d).names =
      (if d.names.contains "index.ts" then d.names
       else d.names ++ ["index.ts"]) := rfl
  have hlist : listSchemaFiles (updateSchemaIndex schemaDefinitions d).names =
      listSchemaFiles d.names := by
    rw [hnames]; exact listSchemaFiles_index_invariant d.names
  show some (generateSchemaIndexContent (jsSetDedup
      (listSchemaFiles (updateSchemaIndex schemaDefinitions d).names ++
        schemaDefinitions.map (fun s => s.fileName)))) =
    some (generateSchemaIndexContent (jsSetDedup
      (listSchemaFiles d.names ++ schemaDefinitions.map (fun s => s.fileName))))
  rw [hlist]

/-! ## C5: migration step behaviour -/

/-- C5 counterexample: when `npx drizzle-kit generate` fails,
`DatabaseAgent.runMigrations` logs a warning but invokes no further
subcommand — in particular no direct schema sync (`drizzle-kit push`)
fallback is attempted, contradicting the claim as stated. -/
theorem migration_no_fallback_cex :
    (runMigrations false true).2 = ["Migration failed"] ∧
    (runMigrations false true).1 = ["npx drizzle-kit generate"] ∧
    ((runMigrations false true).1.contains "npx drizzle-kit push") = false := by
  decide

/-- C5 amended: the "generate+apply then fall back to direct schema
sync" behaviour belongs to the legacy agent's `runMigrations`
(`src/scripts/agent.ts`); `DatabaseAgent.runMigrations` has no fallback.
In both, a migration failure degrades to a warning, and the orchestrator
proceeds to the per-table endpoint stages rather than aborting. -/
theorem migration_warn_and_continue
    (g m p : Bool) (env : PipelineEnv) (dd : SchemaDefinition)
    (hmem : dd ∈ env.parsedSchemas)
    (hplan : (env.parsedSchemas.all fun x => (validateSchema x).isValid) = true)
    (hart : (validateGeneratedSchemas env.artifactFs env.parsedSchemas).isValid = true)
    (hfail : (env.migrationGenOk && env.migrationMigrateOk) = false) :
    (("npx drizzle-kit push" ∈ (runMigrationsLegacy g m p).1) ↔ (g && m) = false) ∧
    ("npx drizzle-kit push" ∉
      (runMigrations env.migrationGenOk env.migrationMigrateOk).1) ∧
    "Migration failed" ∈ (processQueryRun env).2 ∧
    Stage.apiRoute dd.tableName ∈ (processQueryRun env).1 := by
  have hne : env.parsedSchemas.isEmpty = false := by
    cases hps : env.parsedSchemas with
    | nil => rw [hps] at hmem; simp at hmem
    | cons a as => simp [hps]
  refine ⟨?_, ?_, ?_, ?_⟩
  · cases g <;> cases m <;> cases p <;> simp [runMigrationsLegacy]
  · cases hg : env.migrationGenOk <;> cases hm : env.migrationMigrateOk <;>
      simp [runMigrations]
  · simp only [processQueryRun, hne, Bool.false_eq_true, if_false, hplan,
      Bool.not_true, hart]
    cases hg : env.migrationGenOk <;> cases hm : env.migrationMigrateOk <;>
      simp_all [runMigrations]
  · simp only [processQueryRun, hne, Bool.false_eq_true, if_false, hplan,
      Bool.not_true, hart]
    have hmap : Stage.apiRoute dd.tableName ∈
        env.parsedSchemas.map (fun d => Stage.apiRoute d.tableName) :=
      List.mem_map_of_mem _ hmem
    simp [List.mem_append, hmap]

/-- A concrete pipeline environment with a valid plan, valid written
artifacts, and a failing migration step. -/
def demoEnv : PipelineEnv :=
  { parsedSchemas := [recentlyPlayedFallback]
    artifactFs := fun _ => some "pgTable(\"recently_played\", {});"
    migrationGenOk := false
    migrationMigrateOk := false }

/-- C5 witness: on `demoEnv` the failing migration is reported as a
warning and the endpoint stage for `recently_played` still runs; the
legacy migration step falls back to the schema push exactly on failure. -/
theorem migration_warn_and_continue_witness :
    recentlyPlayedFallback ∈ demoEnv.parsedSchemas ∧
    (demoEnv.parsedSchemas.all fun x => (validateSchema x).isValid) = true ∧
    (validateGeneratedSchemas demoEnv.artifactFs demoEnv.parsedSchemas).isValid = true ∧
    (demoEnv.migrationGenOk && demoEnv.migrationMigrateOk) = false ∧
    ((("npx drizzle-kit push" ∈ (runMigrationsLegacy false false false).1) ↔
        (false && false) = false) ∧
      ("npx drizzle-kit push" ∉
        (runMigrations demoEnv.migrationGenOk demoEnv.migrationMigrateOk).1) ∧
      "Migration failed" ∈ (processQueryRun demoEnv).2 ∧
      Stage.apiRoute recentlyPlayedFallback.tableName ∈ (processQueryRun demoEnv).1) :=
  ⟨by decide, by decide, by decide, by decide,
   migration_warn_and_continue false false false demoEnv recentlyPlayedFallback
     (by decide) (by decide) (by decide) (by decide)⟩

/-! ## C8: unparseable collaborator output halts the pipeline -/

/-- C8. When the collaborator's reply contains no JSON array, or parsing
the matched array throws (`parse` returns `none`), the Plan Normalizer
returns the empty list with no retry, and on an empty plan the
orchestrator stops after the phrasing advice: no write, migration,
endpoint, seed or frontend stage runs. -/
theorem planning_failure_halts
    (parse : String → Option (List RawSchema)) (text : String)
    (env : PipelineEnv)
    (hparse : ∀ jsonText, extractJsonArray text = some jsonText →
      parse jsonText = none)
    (henv : env.parsedSchemas = parseQueryForSchemas parse text) :
    parseQueryForSchemas parse text = [] ∧
    (processQueryRun env).1 = [Stage.planning, Stage.adviseUnsupported] ∧
    (∀ t, Stage.apiRoute t ∉ (processQueryRun env).1) ∧
    Stage.migrate ∉ (processQueryRun env).1 := by
  have hempty : parseQueryForSchemas parse text = [] := by
    unfold parseQueryForSchemas
    cases hext : extractJsonArray text with
    | none => rfl
    | some jsonText =>
      show (match parse jsonText with
        | none => ([] : List SchemaDefinition)
        | some aiSchemas => aiSchemas.map processRawSchema) = []
      rw [hparse jsonText hext]
  have htrace : (processQueryRun env).1 =
      [Stage.planning, Stage.adviseUnsupported] := by
    have : env.parsedSchemas = [] := by rw [henv, hempty]
    simp [processQueryRun, this]
  refine ⟨hempty, htrace, ?_, ?_⟩
  · intro t
    rw [htrace]
    simp
  · rw [htrace]
    simp

/-- C8 witness: a reply with no JSON array at all, and a parser that
rejects everything. -/
theorem planning_failure_halts_witness :
    (∀ jsonText, extractJsonArray "I cannot help with that." = some jsonText →
       (fun _ : String => (none : Option (List RawSchema))) jsonText = none) ∧
    (({ parsedSchemas := [], artifactFs := fun _ => none,
        migrationGenOk := true, migrationMigrateOk := true } :
          PipelineEnv).parsedSchemas =
      parseQueryForSchemas (fun _ => none) "I cannot help with that.") ∧
    (parseQueryForSchemas (fun _ => (none : Option (List RawSchema)))
        "I cannot help with that." = [] ∧
      (processQueryRun
        { parsedSchemas := [], artifactFs := fun _ => none,
          migrationGenOk := true, migrationMigrateOk := true }).1 =
        [Stage.planning, Stage.adviseUnsupported] ∧
      (∀ t, Stage.apiRoute t ∉ (processQueryRun
        { parsedSchemas := [], artifactFs := fun _ => none,
          migrationGenOk := true, migrationMigrateOk := true }).1) ∧
      Stage.migrate ∉ (processQueryRun
        { parsedSchemas := [], artifactFs := fun _ => none,
          migrationGenOk := true, migrationMigrateOk := true }).1) :=
  ⟨fun _ _ => rfl, by decide,
   planning_failure_halts (fun _ => none) "I cannot help with that."
     { parsedSchemas := [], artifactFs := fun _ => none,
       migrationGenOk := true, migrationMigrateOk := true }
     (fun _ _ => rfl) (by decide)⟩

/-! ## C9: the UI planner's structural fallback -/

/-- When no schema matches any keyword-set, the keyword phase leaves the
analysis untouched. -/
theorem keywordPhase_of_no_match (lowerQuery : String)
    (defs : List SchemaDefinition)
    (h : ∀ s ∈ defs, findMapping lowerQuery s = none) :
    ∀ a, keywordPhase lowerQuery defs a = a := by
  induction defs with
  | nil => intro a; rfl
  | cons s rest ih =>
    intro a
    have hs : findMapping lowerQuery s = none := h s (List.mem_cons_self s rest)
    have hrest : ∀ x ∈ rest, findMapping lowerQuery x = none := by
      intro x hx; exact h x (List.mem_cons_of_mem s hx)
    simp only [keywordPhase, hs]
    exact ih hrest a

/-- A schema qualifies for the structural fallback when it has both a
title-like and an artist/creator-like field name. -/
def qualifiesForCollection (s : SchemaDefinition) : Bool :=
  hasTitleField s && hasArtistField s

/-- Full characterization of the fallback loop: qualifying tables become
collection sections (setting the main-content flag), the rest are
reported as skipped. -/
theorem fallbackPhase_spec (defs : List SchemaDefinition) :
    ∀ (a : UIAnalysis) (skipped : List String),
      fallbackPhase defs a skipped =
        ({ shouldUpdateMainContent :=
             a.shouldUpdateMainContent || defs.any qualifiesForCollection
           shouldUpdateSidebar := a.shouldUpdateSidebar
           sections := a.sections ++
             (defs.filter qualifiesForCollection).map collectionSection },
         skipped ++ (defs.filter (fun s => !qualifiesForCollection s)).map skippedMsg) := by
  induction defs with
  | nil => intro a skipped; simp [fallbackPhase]
  | cons s rest ih =>
    intro a skipped
    by_cases hq : (hasTitleField s && hasArtistField s) = true
    · simp only [fallbackPhase, hq, if_true, ih, List.any_cons, List.filter_cons,
        qualifiesForCollection, Bool.not_true, List.map_cons]
      simp [List.append_assoc]
    · have hq' : (hasTitleField s && hasArtistField s) = false :=
        Bool.eq_false_iff.mpr hq
      simp only [fallbackPhase, hq', if_false, ih, List.any_cons, List.filter_cons,
        qualifiesForCollection, Bool.not_false, List.map_cons]
      simp [List.append_assoc]

/-- C9. Given a query and table list in which no table matches any
keyword-set mapping, the planner falls back to the structural heuristic:
every table with both a title-like field name (`title`, `name`,
`song_title`, `track_title`) and an artist/creator-like field name
(`artist`, `artist_name`, `creator`) becomes a generic collection
section (target array `recentlyPlayed`), the main-content flag is set
exactly when some table qualifies, and the remaining tables are reported
as skipped rather than errored. -/
theorem ui_fallback_collections (query : String)
    (schemaDefinitions : List SchemaDefinition)
    (h : ∀ s ∈ schemaDefinitions, findMapping (jsToLower query) s = none) :
    analyzeQueryForUIIntegration query schemaDefinitions =
      ({ shouldUpdateMainContent := schemaDefinitions.any qualifiesForCollection
         shouldUpdateSidebar := false
         sections := (schemaDefinitions.filter qualifiesForCollection).map
           collectionSection },
       (schemaDefinitions.filter (fun s => !qualifiesForCollection s)).map
         skippedMsg) := by
  simp only [analyzeQueryForUIIntegration]
  rw [keywordPhase_of_no_match (jsToLower query) schemaDefinitions h]
  simp only [List.isEmpty_nil, if_true]
  rw [fallbackPhase_spec]
  simp

/-- Two concrete tables: one qualifying for the structural fallback, one
not. -/
def booksDef : SchemaDefinition :=
  { tableName := "books", fileName := "books.ts",
    fields := [ { name := "name", type := "text", constraints := none },
                { name := "creator", type := "text", constraints := none } ] }

/-- A table with neither a title-like nor an artist-like field. -/
def miscDef : SchemaDefinition :=
  { tableName := "misc_data", fileName := "misc_data.ts",
    fields := [ { name := "payload", type := "text", constraints := none } ] }

/-- C9 witness: on a query matching no keyword-set, `books` becomes a
main-content collection section and `misc_data` is skipped. -/
theorem ui_fallback_collections_witness :
    (∀ s ∈ [booksDef, miscDef],
      findMapping (jsToLower "add a books table please") s = none) ∧
    analyzeQueryForUIIntegration "add a books table please" [booksDef, miscDef] =
      ({ shouldUpdateMainContent := [booksDef, miscDef].any qualifiesForCollection
         shouldUpdateSidebar := false
         sections := ([booksDef, miscDef].filter qualifiesForCollection).map
           collectionSection },
       ([booksDef, miscDef].filter (fun s => !qualifiesForCollection s)).map
         skippedMsg) :=
  ⟨by decide,
   ui_fallback_collections "add a books table please" [booksDef, miscDef]
     (by decide)⟩

/-! ## C4: the Structural Code Validator flags a missing delete handler -/

/-- C4. For every generated endpoint source text with no top-level
exported delete handler, the Structural Code Validator returns an invalid
result whose error list identifies the missing delete handler
specifically. -/
theorem validator_flags_missing_delete (tableName code : String)
    (h : hasHandlerExport code "DELETE" = false) :
    (validateEndpointCode tableName code).isValid = false ∧
      missingHandlerMsg "DELETE" ∈ (validateEndpointCode tableName code).errors := by
  have hmem : missingHandlerMsg "DELETE" ∈ handlerErrors code := by
    simp only [handlerErrors, expectedHandlers]
    refine List.mem_filterMap.mpr ⟨"DELETE", by simp, ?_⟩
    simp [h]
  have hmem2 : missingHandlerMsg "DELETE" ∈
      (validateEndpointCode tableName code).errors := by
    simp only [validateEndpointCode, List.mem_append]
    tauto
  refine ⟨?_, hmem2⟩
  have hval : (validateEndpointCode tableName code).isValid =
      ((validateEndpointCode tableName code).errors.length == 0) := rfl
  rw [hval]
  exact length_beq_zero_false (List.ne_nil_of_mem hmem2)

/-- C4 witness: the empty generated text has no delete handler. -/
theorem validator_flags_missing_delete_witness :
    hasHandlerExport "" "DELETE" = false ∧
    ((validateEndpointCode "songs" "").isValid = false ∧
      missingHandlerMsg "DELETE" ∈ (validateEndpointCode "songs" "").errors) :=
  ⟨by decide, validator_flags_missing_delete "songs" "" (by decide)⟩

/-! ## C2: the Retry-and-Repair Engine's bounded loop -/

/-- C2. For every table and generation oracle, a run whose first two
drafts fail structural validation and whose third passes terminates
Accepted with attempt number 3 (writing the post-processed text), and a
run whose third draft is still invalid raises a GenerationFailure and
writes no endpoint file. -/
theorem retry_engine_bounded (tableName : String) (gen : Nat → String)
    (h1 : (validateEndpointCode tableName (gen 1)).isValid = false)
    (h2 : (validateEndpointCode tableName (gen 2)).isValid = false) :
    ((validateEndpointCode tableName (gen 3)).isValid = true →
      generateEndpointWithRetry tableName gen =
        (Except.ok (3, postProcessGeneratedCode (gen 3)),
         [(apiRoutePath tableName, postProcessGeneratedCode (gen 3))])) ∧
    ((validateEndpointCode tableName (gen 3)).isValid = false →
      generateEndpointWithRetry tableName gen =
        (Except.error "GenerationFailure", [])) := by
  have step : ∀ (att rem : Nat),
      (validateEndpointCode tableName (gen att)).isValid = false →
      attemptFrom tableName gen att (rem + 1) =
        attemptFrom tableName gen (att + 1) rem := by
    intro att rem hv
    show (if (validateEndpointCode tableName (gen att)).isValid = true then
        Except.ok (att, postProcessGeneratedCode (gen att))
      else attemptFrom tableName gen (att + 1) rem) = _
    rw [hv]
    simp
  have h12 : attemptFrom tableName gen 1 3 = attemptFrom tableName gen 2 2 :=
    step 1 2 h1
  have h23 : attemptFrom tableName gen 2 2 = attemptFrom tableName gen 3 1 :=
    step 2 1 h2
  constructor
  · intro h3
    have hend : attemptFrom tableName gen 3 1 =
        Except.ok (3, postProcessGeneratedCode (gen 3)) := by
      show (if (validateEndpointCode tableName (gen 3)).isValid = true then
          Except.ok (3, postProcessGeneratedCode (gen 3))
        else attemptFrom tableName gen 4 0) = _
      rw [h3]
      simp
    unfold generateEndpointWithRetry
    rw [h12, h23, hend]
  · intro h3
    have hend : attemptFrom tableName gen 3 1 =
        Except.error "GenerationFailure" := by
      show (if (validateEndpointCode tableName (gen 3)).isValid = true then
          Except.ok (3, postProcessGeneratedCode (gen 3))
        else attemptFrom tableName gen 4 0) = _
      rw [h3]
      simp only [Bool.false_eq_true, if_false]
      rfl
    unfold generateEndpointWithRetry
    rw [h12, h23, hend]

/-- A structurally valid endpoint text for the `songs` table. -/
def sampleEndpointCode : String :=
  "import \x7b drizzle \x7d from \"drizzle-orm/node-postgres\";\nimport \x7b songs \x7d from \"@/db/schema\";\nconst pool = new Pool(\x7b\n\x7d);\nconst db = drizzle(pool);\nexport async function GET(request: NextRequest) \x7b\n\x7d\nexport async function POST(request: NextRequest) \x7b\n\x7d\nexport async function PUT(request: NextRequest) \x7b\n\x7d\nexport async function DELETE(request: NextRequest) \x7b\n\x7d"

/-- A generation oracle whose first two drafts are empty (invalid) and
whose third draft is the valid sample text. -/
def retryDemoGen : Nat → String :=
  fun n => if n == 3 then sampleEndpointCode else ""

set_option maxRecDepth 100000 in
/-- C2 witness: on `retryDemoGen`, attempts 1 and 2 fail validation, the
third passes, and the engine accepts at attempt 3 writing one file. -/
theorem retry_engine_bounded_witness :
    (validateEndpointCode "songs" (retryDemoGen 1)).isValid = false ∧
    (validateEndpointCode "songs" (retryDemoGen 2)).isValid = false ∧
    (validateEndpointCode "songs" (retryDemoGen 3)).isValid = true ∧
    generateEndpointWithRetry "songs" retryDemoGen =
      (Except.ok (3, postProcessGeneratedCode (retryDemoGen 3)),
       [(apiRoutePath "songs", postProcessGeneratedCode (retryDemoGen 3))]) :=
  ⟨by decide, by decide, by decide,
   (retry_engine_bounded "songs" retryDemoGen (by decide) (by decide)).1 (by decide)⟩
